import Mathlib

set_option maxHeartbeats 1000000

/-!
Shallow embedding of the message-scheduler repository.

Instants (`chrono::DateTime<Utc>`) and durations (`chrono::Duration`) are
embedded as `Int` (a linear timeline); `u32` transmission counts as `Nat`,
with the `as i32` cast modelled explicitly where the source performs it.
Uuids are embedded as `Nat` values supplied by the caller, since
`Uuid::new_v4` draws external randomness. The external cron library's
occurrence iterator is an abstract stream `Nat → Option Int`.

The namespace `Model` embeds src/model.rs, `RepositoryInMemory` embeds
src/repository_in_memory.rs, and the namespace `Scheduler` embeds
src/scheduler.rs (which declares its own copies of the data types). The
engine's collaborators (repository, transmitter, metrics, clock) are
injected; their responses are inputs, and engine functions return the
ordered trace of collaborator interactions next to their result. A Rust
`panic!` is an explicit `PanicOr.panicked` outcome.
-/

namespace Model

/-- Embeds `Repeat` from src/model.rs lines 5-11: `Infinitely`, or `Times(n)` with
the number of transmissions planned. -/
inductive Repeat where
  | infinitely
  | times (n : Nat)
deriving DecidableEq

/-- Embeds `Interval` from src/model.rs lines 13-18. The source field `repeat` is
named `rep` here because `repeat` is reserved in Lean. -/
structure Interval where
  first_transmission : Int
  interval : Int
  rep : Repeat

/-- Rust `as` cast from `u32` to `i32` (two's-complement wrap), as performed
on `transmission_count` in `Interval::next` (src/model.rs line 38). -/
def i32_of_u32 (c : Nat) : Int :=
if c % 2 ^ 32 < 2 ^ 31 then ((c % 2 ^ 32 : Nat) : Int) else ((c % 2 ^ 32 : Nat) : Int) - 2 ^ 32

/-- Embeds `Interval::next` from src/model.rs lines 33-45. -/
def Interval.next (iv : Interval) (transmission_count : Nat) : Option Int :=
match iv.rep with
| .times repetitions =>
    if transmission_count ≥ repetitions then none
    else some (iv.first_transmission + iv.interval * i32_of_u32 transmission_count)
| .infinitely => some (iv.first_transmission + iv.interval * i32_of_u32 transmission_count)

/-- Embeds `Cron` from src/model.rs lines 48-53. The external `cron::Schedule`
value together with `schedule.after(&first_transmission_after)` is embedded
as the abstract occurrence stream `occurrences`, where `occurrences k` is
the k-th element (`.nth(k)`) of that iterator. -/
structure Cron where
  first_transmission_after : Int
  occurrences : Nat → Option Int
  rep : Repeat

/-- Embeds `Cron::next` from src/model.rs lines 68-82. -/
def Cron.next (c : Cron) (transmission_count : Nat) : Option Int :=
match c.rep with
| .times repetitions =>
    if transmission_count ≥ repetitions then none
    else c.occurrences transmission_count
| .infinitely => c.occurrences transmission_count

/-- Embeds `Delayed` from src/model.rs lines 85-88. -/
structure Delayed where
  transmit_at : Int

/-- Embeds `Delayed::next` from src/model.rs lines 95-100. -/
def Delayed.next (d : Delayed) (transmission_count : Nat) : Option Int :=
match transmission_count with
| 0 => some d.transmit_at
| _ => none

/-- Embeds `SchedulePattern` from src/model.rs lines 103-108. -/
inductive SchedulePattern where
  | delayed (d : Delayed)
  | cron (c : Cron)
  | interval (iv : Interval)

/-- Embeds `SchedulePattern::next` from src/model.rs lines 110-121. -/
def SchedulePattern.next : SchedulePattern → Nat → Option Int
| .delayed d, transmission_count => d.next transmission_count
| .interval iv, transmission_count => iv.next transmission_count
| .cron c, transmission_count => c.next transmission_count

/-- Embeds `Message` from src/model.rs lines 123-126. -/
inductive Message where
  | event (data : String)

/-- Embeds `MessageSchedule` from src/model.rs lines 128-135. -/
structure MessageSchedule where
  id : Nat
  schedule_pattern : SchedulePattern
  next : Option Int
  transmission_count : Nat
  message : Message

/-- Embeds `MessageSchedule::new` from src/model.rs lines 138-154. The randomly
drawn `Uuid::new_v4()` is supplied as the parameter `id`. Note that the
seeded `next` is computed directly per variant (`transmit_at`,
`first_transmission`, first cron occurrence), not via `SchedulePattern::next`. -/
def MessageSchedule.new (id : Nat) (schedule_pattern : SchedulePattern) (message : Message) :
    MessageSchedule :=
let next := match schedule_pattern with
  | .delayed d => some d.transmit_at
  | .interval iv => some iv.first_transmission
  | .cron c => c.occurrences 0
{ id := id, schedule_pattern := schedule_pattern, next := next,
  transmission_count := 0, message := message }

end Model

/-- Embeds `RepositoryInMemory` from src/repository_in_memory.rs lines 9-11. -/
structure RepositoryInMemory where
  schedules : List Model.MessageSchedule

/-- Embeds `RepositoryInMemory::store_schedule` from src/repository_in_memory.rs
lines 15-19: pushes the schedule and always returns `Ok(())`. -/
def RepositoryInMemory.store_schedule (r : RepositoryInMemory)
    (schedule : Model.MessageSchedule) : RepositoryInMemory :=
⟨r.schedules ++ [schedule]⟩

/-- Embeds `RepositoryInMemory::poll_batch` from src/repository_in_memory.rs lines
21-36. It takes `&self` (an immutable borrow): it cannot and does not mutate
the store, so it is embedded as a pure function of the store; no state
transition is applied to the returned schedules (the model's
`MessageSchedule` has no state field at all). -/
def RepositoryInMemory.poll_batch (r : RepositoryInMemory) (before : Int)
    (batch_size : Nat) : List Model.MessageSchedule :=
(r.schedules.filter fun schedule =>
  match schedule.next with
  | none => false
  | some next => decide (next ≤ before)).take batch_size

/-- Embeds `RepositoryInMemory::save` from src/repository_in_memory.rs lines 38-46:
overwrites every stored schedule whose id matches. -/
def RepositoryInMemory.save (r : RepositoryInMemory)
    (schedule : Model.MessageSchedule) : RepositoryInMemory :=
⟨r.schedules.map fun stored => if stored.id = schedule.id then schedule else stored⟩

/-- Embeds `RepositoryInMemory::reschedule` from src/repository_in_memory.rs lines
48-51: a no-op returning `Ok(())`. -/
def RepositoryInMemory.reschedule (r : RepositoryInMemory) (_schedule_id : Nat) :
    RepositoryInMemory :=
r

namespace Scheduler

/-- Embeds `Repeat` from src/scheduler.rs lines 14-18 (the engine's own copy). -/
inductive Repeat where
  | infinitely
  | times (n : Nat)
deriving DecidableEq

/-- Embeds `Periodic` from src/scheduler.rs lines 20-25. -/
structure Periodic where
  next : Int
  interval : Int
  rep : Repeat

/-- The external `cron::Schedule` payload of the engine's `Cron` pattern,
embedded as an abstract occurrence stream (the engine never evaluates it:
both uses panic first). -/
structure CronSchedule where
  occurrences : Nat → Option Int

/-- Embeds `SchedulePattern` from src/scheduler.rs lines 27-32. -/
inductive SchedulePattern where
  | atDateTime (t : Int)
  | cron (s : CronSchedule) (r : Repeat)
  | periodicInterval (p : Periodic)

/-- Embeds `State` from src/scheduler.rs lines 34-42. -/
inductive State where
  | scheduled
  | doing
  | done
deriving DecidableEq

/-- Embeds `Message` from src/scheduler.rs lines 44-47. -/
inductive Message where
  | event (data : String)

/-- Embeds `MessageSchedule` from src/scheduler.rs lines 49-54. -/
structure MessageSchedule where
  id : Nat
  schedule_pattern : SchedulePattern
  message : Message

/-- Embeds `MessageSchedule::new` from src/scheduler.rs lines 56-64, with the random
uuid supplied as `id`. -/
def MessageSchedule.new (id : Nat) (schedule_pattern : SchedulePattern) (message : Message) :
    MessageSchedule :=
{ id := id, schedule_pattern := schedule_pattern, message := message }

/-- Embeds `MetricEvent` from src/scheduler.rs lines 85-93. -/
inductive MetricEvent where
  | scheduled (ok : Bool)
  | polled (ok : Bool)
  | transmitted (ok : Bool)
  | markedDone (ok : Bool)
  | decrementedPeriodic (ok : Bool)
  | rescheduled (ok : Bool)
deriving DecidableEq

/-- A call the engine makes on its `Repository` collaborator
(src/scheduler.rs lines 66-78). -/
inductive RepoCall where
  | store_schedule (s : MessageSchedule)
  | mark_done (id : Nat)
  | set_next_periodic (id : Nat) (next : Int) (r : Repeat)
  | reschedule (id : Nat)

/-- One observable collaborator interaction of the engine, in program order. -/
inductive Event where
  | repoCall (c : RepoCall)
  | transmitCall (m : Message)
  | metric (e : MetricEvent)

/-- The injected collaborators' responses: what the transmitter and each
repository operation return, and the instant the injected clock reads. -/
structure Env where
  transmitResult : Message → Except String Unit
  markDoneResult : Nat → Except String Unit
  setNextPeriodicResult : Nat → Int → Repeat → Except String Unit
  rescheduleResult : Nat → Except String Unit
  now : Int

/-- Outcome of running engine code that may `panic!`. -/
inductive PanicOr (α : Type) where
  | panicked (msg : String)
  | ok (a : α)

/-- The composite error `format!("{:?}: {:?}", transmission_err, err)` built
at src/scheduler.rs line 269, with the two debug-formatted errors kept as
plain strings. -/
def compositeError (transmission_err err : String) : String :=
transmission_err ++ ": " ++ err

/-- Returns `true` exactly on `Ok`. -/
def exceptIsOk : Except String Unit → Bool
| .ok _ => true
| .error _ => false

/-- Embeds `MessageScheduler::transmit` from src/scheduler.rs lines 192-274: call
the transmitter; on success reconcile the repository according to the
pattern (panicking on `Cron`, line 255); on failure release the claim via
`reschedule`. Returns the method's `Result` with the ordered interaction
trace. -/
def MessageScheduler.transmit (env : Env) (schedule : MessageSchedule) :
    PanicOr (Except String Unit × List Event) :=
match env.transmitResult schedule.message with
| .ok _ =>
    match schedule.schedule_pattern with
    | .atDateTime _ =>
        match env.markDoneResult schedule.id with
        | .ok _ =>
            .ok (.ok (), [.transmitCall schedule.message,
              .repoCall (.mark_done schedule.id), .metric (.markedDone true)])
        | .error err =>
            .ok (.error err, [.transmitCall schedule.message,
              .repoCall (.mark_done schedule.id), .metric (.markedDone false)])
    | .periodicInterval period =>
        let next_datetime := period.next + period.interval
        match period.rep with
        | .infinitely =>
            match env.setNextPeriodicResult schedule.id next_datetime .infinitely with
            | .ok _ =>
                .ok (.ok (), [.transmitCall schedule.message,
                  .repoCall (.set_next_periodic schedule.id next_datetime .infinitely),
                  .metric (.decrementedPeriodic true)])
            | .error err =>
                .ok (.error err, [.transmitCall schedule.message,
                  .repoCall (.set_next_periodic schedule.id next_datetime .infinitely),
                  .metric (.decrementedPeriodic false)])
        | .times 0 =>
            match env.markDoneResult schedule.id with
            | .ok _ =>
                .ok (.ok (), [.transmitCall schedule.message,
                  .repoCall (.mark_done schedule.id), .metric (.markedDone true)])
            | .error err =>
                .ok (.error err, [.transmitCall schedule.message,
                  .repoCall (.mark_done schedule.id), .metric (.markedDone false)])
        | .times (n + 1) =>
            match env.setNextPeriodicResult schedule.id next_datetime (.times n) with
            | .ok _ =>
                .ok (.ok (), [.transmitCall schedule.message,
                  .repoCall (.set_next_periodic schedule.id next_datetime (.times n))])
            | .error err =>
                .ok (.error err, [.transmitCall schedule.message,
                  .repoCall (.set_next_periodic schedule.id next_datetime (.times n))])
    | .cron _ _ => .panicked "Implement me"
| .error transmission_err =>
    match env.rescheduleResult schedule.id with
    | .ok _ =>
        .ok (.error transmission_err, [.transmitCall schedule.message,
          .repoCall (.reschedule schedule.id), .metric (.rescheduled true)])
    | .error err =>
        .ok (.error (compositeError transmission_err err), [.transmitCall schedule.message,
          .repoCall (.reschedule schedule.id), .metric (.rescheduled false)])

/-- One element's trip through the iterator chain of `process_batch`
(src/scheduler.rs lines 169-187): the due filter — which panics on `Cron`
(line 174) and compares strictly against the injected clock — then
`transmit` followed by the `Transmitted` metric; the trailing error branch
only prints, so the per-element observable output is the event trace. -/
def MessageScheduler.processOne (env : Env) (schedule : MessageSchedule) :
    PanicOr (List Event) :=
match schedule.schedule_pattern with
| .atDateTime datetime =>
    if datetime < env.now then
      match MessageScheduler.transmit env schedule with
      | .panicked msg => .panicked msg
      | .ok (.ok _, evts) => .ok (evts ++ [.metric (.transmitted true)])
      | .ok (.error _, evts) => .ok (evts ++ [.metric (.transmitted false)])
    else .ok []
| .periodicInterval periodic =>
    if periodic.next < env.now then
      match MessageScheduler.transmit env schedule with
      | .panicked msg => .panicked msg
      | .ok (.ok _, evts) => .ok (evts ++ [.metric (.transmitted true)])
      | .ok (.error _, evts) => .ok (evts ++ [.metric (.transmitted false)])
    else .ok []
| .cron _ _ => .panicked "Implement me"

/-- The iterator chain of `process_batch` over the whole polled batch,
element by element (Rust iterators are lazy, so each element runs through
the entire chain before the next one starts). -/
def MessageScheduler.processBatchLoop (env : Env) :
    List MessageSchedule → PanicOr (List Event)
| [] => .ok []
| schedule :: rest =>
    match MessageScheduler.processOne env schedule with
    | .panicked msg => .panicked msg
    | .ok evts =>
        match MessageScheduler.processBatchLoop env rest with
        | .panicked msg => .panicked msg
        | .ok evts2 => .ok (evts ++ evts2)

/-- Embeds `MessageScheduler::process_batch` from src/scheduler.rs lines 157-190:
`pollResult` is the repository's `poll_batch(BATCH_SIZE)` response; the
`Polled` metric is emitted first, then the batch is processed. The method
itself returns `Ok(())` whenever polling succeeded. -/
def MessageScheduler.process_batch (env : Env)
    (pollResult : Except String (List MessageSchedule)) :
    PanicOr (Except String Unit × List Event) :=
match pollResult with
| .error err => .ok (.error err, [.metric (.polled false)])
| .ok schedules =>
    match MessageScheduler.processBatchLoop env schedules with
    | .panicked msg => .panicked msg
    | .ok evts => .ok (.ok (), .metric (.polled true) :: evts)

/-- Embeds `MessageScheduler::schedule` from src/scheduler.rs lines 138-150: builds
the schedule (no validation of the pattern whatsoever) and stores it;
`storeResult` is the repository's response to `store_schedule`. -/
def MessageScheduler.schedule (storeResult : Except String Unit)
    (when : SchedulePattern) (what : Message) (id : Nat) :
    Except String Unit × List Event :=
let sched := MessageSchedule.new id when what
match storeResult with
| .ok _ => (.ok (), [.repoCall (.store_schedule sched), .metric (.scheduled true)])
| .error err => (.error err, [.repoCall (.store_schedule sched), .metric (.scheduled false)])

end Scheduler

namespace Scheduler

/-- Whether a pattern is the engine's `Cron` variant (both engine code paths
panic on it). -/
def SchedulePattern.isCronPattern : SchedulePattern → Bool
| .cron _ _ => true
| _ => false

/-- The instant the due filter of `process_batch` compares against the clock:
the `AtDateTime` value, or the periodic `next` value. -/
def scheduledInstant : SchedulePattern → Option Int
| .atDateTime t => some t
| .periodicInterval p => some p.next
| .cron _ _ => none

/-- The due filter of `process_batch` as a boolean, for non-cron patterns. -/
def dueBool (env : Env) (s : MessageSchedule) : Bool :=
match s.schedule_pattern with
| .atDateTime t => decide (t < env.now)
| .periodicInterval p => decide (p.next < env.now)
| .cron _ _ => false

/-- The schedule passes the due filter and is not a `Cron` pattern. -/
def dueNonCron (env : Env) (s : MessageSchedule) : Prop :=
(∃ t, s.schedule_pattern = .atDateTime t ∧ t < env.now) ∨
(∃ p, s.schedule_pattern = .periodicInterval p ∧ p.next < env.now)

/-- An environment in which every transmitter and repository call succeeds
and the injected clock reads `now`. -/
def envAllOk (now : Int) : Env :=
{ transmitResult := fun _ => .ok (), markDoneResult := fun _ => .ok (),
  setNextPeriodicResult := fun _ _ _ => .ok (), rescheduleResult := fun _ => .ok (),
  now := now }

/-- An environment in which the transmitter succeeds but every repository
state update (`mark_done`, `set_next_periodic`) fails. -/
def envSaveFails : Env :=
{ transmitResult := fun _ => .ok (), markDoneResult := fun _ => .error "db down",
  setNextPeriodicResult := fun _ _ _ => .error "db down",
  rescheduleResult := fun _ => .ok (), now := 10 }

/-- An environment in which the transmitter fails and the repository calls
succeed. -/
def envTransmitFails : Env :=
{ transmitResult := fun _ => .error "boom", markDoneResult := fun _ => .ok (),
  setNextPeriodicResult := fun _ _ _ => .ok (), rescheduleResult := fun _ => .ok (),
  now := 10 }

end Scheduler

namespace Model

/-- The pattern's repeat allows at least one transmission (everything except
`Times(0)` on `Interval` and `Cron`). -/
def repeatPositive : SchedulePattern → Prop
| .delayed _ => True
| .interval iv => iv.rep ≠ .times 0
| .cron c => c.rep ≠ .times 0

/-- Well-formedness under which the next-fire sequence is strictly
increasing: a positive interval for `Interval` patterns, and a strictly
increasing occurrence stream for `Cron` patterns (a property of the external
cron library). -/
def patternWellFormed : SchedulePattern → Prop
| .delayed _ => True
| .interval iv => 0 < iv.interval
| .cron c => ∀ i j ti tj, i < j → c.occurrences i = some ti →
    c.occurrences j = some tj → ti < tj

/-- Side condition keeping a transmission count inside the range where the
source's arithmetic is exact: only `Interval::next` casts the count with
`as i32` (src/model.rs line 38), so only Interval patterns need the count
below 2^31; `Delayed` compares the count directly and `Cron::next` uses a
lossless `as usize` cast. -/
def countWithinCast : SchedulePattern → Nat → Prop
| .interval _, k => k < 2 ^ 31
| _, _ => True

end Model

lemma i32_of_u32_of_lt (k : Nat) (h : k < 2 ^ 31) : Model.i32_of_u32 k = (k : Int) := by
  have h32 : k < 2 ^ 32 := lt_trans h (by norm_num)
  unfold Model.i32_of_u32
  rw [Nat.mod_eq_of_lt h32, if_pos h]

/-- An `Interval` pattern with `Times(0)`, used to refute the claim that the
seeded `next` always equals `next_fire_time(pattern, 0)`. -/
def patTimes0 : Model.SchedulePattern := .interval ⟨5, 3, .times 0⟩

/-- An `Interval` pattern with `Times(1)`. -/
def patT1 : Model.SchedulePattern := .interval ⟨5, 3, .times 1⟩

/-- An `Interval` pattern with a zero interval, on which the next-fire
sequence is constant rather than strictly increasing. -/
def patZeroIv : Model.SchedulePattern := .interval ⟨0, 0, .infinitely⟩

/-- An `Interval` pattern with a positive interval. -/
def patPosIv : Model.SchedulePattern := .interval ⟨0, 1, .infinitely⟩

/-- An `Interval` whose repeat bound is large enough that transmission count
2^31 still demands a fire time. -/
def ivBig : Model.Interval := ⟨0, 1, .times 4294967295⟩

/-- Claim C2 (counterexample): for an `Interval` pattern with `Times(0)`,
`MessageSchedule::new` seeds `next = Some(first_transmission)` while
`next_fire_time(pattern, 0)` is `None`, so the seeded `next` is not the value
of the pure next function at count 0. -/
theorem new_seeded_next_mismatch_times_zero :
  (Model.MessageSchedule.new 0 patTimes0 (.event "m")).next = some 5 ∧
  Model.SchedulePattern.next patTimes0 0 = none ∧
  (Model.MessageSchedule.new 0 patTimes0 (.event "m")).next ≠
    Model.SchedulePattern.next patTimes0 0 :=
⟨rfl, rfl, by decide⟩

/-- Claim C2 (amended): the schedule built at ingestion has
`transmission_count = 0`, carries the given id, and seeds `next` with the
pattern's first occurrence; this coincides with `next_fire_time(pattern, 0)`
for every pattern whose repeat is not `Times(0)` (for `Times(0)` on Interval
and Cron the seeded value is `Some(first occurrence)` but the next function
gives `None`). -/
theorem new_seeds_zero_count_and_first_occurrence :
  ∀ (id : Nat) (pat : Model.SchedulePattern) (msg : Model.Message),
    (Model.MessageSchedule.new id pat msg).transmission_count = 0 ∧
    (Model.MessageSchedule.new id pat msg).id = id ∧
    (Model.repeatPositive pat →
      (Model.MessageSchedule.new id pat msg).next = Model.SchedulePattern.next pat 0) := by
  intro id pat msg
  refine ⟨rfl, rfl, ?_⟩
  intro h
  cases pat with
  | delayed d => rfl
  | interval iv =>
    cases hr : iv.rep with
    | infinitely =>
      simp [Model.MessageSchedule.new, Model.SchedulePattern.next, Model.Interval.next,
        hr, Model.i32_of_u32]
    | times n =>
      rw [Model.repeatPositive, hr] at h
      obtain ⟨m, rfl⟩ : ∃ m, n = m + 1 := by
        cases n with
        | zero => exact absurd rfl h
        | succ m => exact ⟨m, rfl⟩
      simp [Model.MessageSchedule.new, Model.SchedulePattern.next, Model.Interval.next,
        hr, Model.i32_of_u32]
  | cron c =>
    cases hr : c.rep with
    | infinitely =>
      simp [Model.MessageSchedule.new, Model.SchedulePattern.next, Model.Cron.next, hr]
    | times n =>
      rw [Model.repeatPositive, hr] at h
      obtain ⟨m, rfl⟩ : ∃ m, n = m + 1 := by
        cases n with
        | zero => exact absurd rfl h
        | succ m => exact ⟨m, rfl⟩
      simp [Model.MessageSchedule.new, Model.SchedulePattern.next, Model.Cron.next, hr]

/-- Witness for C2's amended theorem at a concrete `Times(1)` interval
pattern. -/
theorem new_seeds_zero_count_and_first_occurrence_witness :
  (Model.MessageSchedule.new 7 patT1 (.event "m")).transmission_count = 0 ∧
  (Model.MessageSchedule.new 7 patT1 (.event "m")).next =
    Model.SchedulePattern.next patT1 0 := by
  refine ⟨(new_seeds_zero_count_and_first_occurrence 7 patT1 (.event "m")).1,
    (new_seeds_zero_count_and_first_occurrence 7 patT1 (.event "m")).2.2 ?_⟩
  simp [patT1, Model.repeatPositive]

/-- Claim C6 (counterexample): at `transmission_count = 2^31` the source's
`transmission_count as i32` cast wraps to `-2^31`, so the returned fire time
is `first_transmission - 2^31·interval`, not the exact
`first_transmission + count·interval`. -/
theorem interval_next_wraps_at_i32_boundary :
  Model.Interval.next ivBig 2147483648 = some (-2147483648) ∧
  Model.Interval.next ivBig 2147483648 ≠
    some (ivBig.first_transmission + ivBig.interval * (2147483648 : Int)) := by
  constructor
  · decide
  · decide

/-- Claim C6 (amended): for every count, `Times(n)` with `count ≥ n` yields
`None`; and for counts below 2^31 (where the `as i32` cast is the identity)
the non-exhausted result is exactly
`Some(first_transmission + interval · count)`. -/
theorem interval_next_exact_in_i32_range :
  ∀ (iv : Model.Interval) (count : Nat),
    (∀ n, iv.rep = .times n → n ≤ count → Model.Interval.next iv count = none) ∧
    (count < 2 ^ 31 →
      (iv.rep = .infinitely ∨ ∃ n, iv.rep = .times n ∧ count < n) →
      Model.Interval.next iv count =
        some (iv.first_transmission + iv.interval * (count : Int))) := by
  intro iv count
  constructor
  · intro n hr hn
    simp [Model.Interval.next, hr, hn]
  · intro hc hcase
    have hcast := i32_of_u32_of_lt count hc
    rcases hcase with hr | ⟨n, hr, hn⟩
    · simp [Model.Interval.next, hr, hcast]
    · have : ¬ count ≥ n := by omega
      simp [Model.Interval.next, hr, hcast, this]

/-- Witness for C6's amended theorem: a `Times(5)` interval evaluated below
and at the exhaustion bound. -/
theorem interval_next_exact_in_i32_range_witness :
  Model.Interval.next ⟨2, 3, .times 5⟩ 4 = some 14 ∧
  Model.Interval.next ⟨2, 3, .times 5⟩ 7 = none := by
  constructor
  · have := (interval_next_exact_in_i32_range ⟨2, 3, .times 5⟩ 4).2 (by norm_num)
      (Or.inr ⟨5, rfl, by norm_num⟩)
    simpa using this
  · exact (interval_next_exact_in_i32_range ⟨2, 3, .times 5⟩ 7).1 5 rfl (by norm_num)

/-- Claim C7 (counterexample): for an `Interval` pattern with interval 0
(nothing rejects it at ingestion), the next-fire sequence is constant, so it
is not strictly monotonically increasing. -/
theorem next_fire_not_strictly_monotone :
  ¬ (∀ (k k' : Nat) (t t' : Int), k < k' →
      Model.SchedulePattern.next patZeroIv k = some t →
      Model.SchedulePattern.next patZeroIv k' = some t' → t < t') := by
  intro h
  have h0 : Model.SchedulePattern.next patZeroIv 0 = some 0 := by decide
  have h1 : Model.SchedulePattern.next patZeroIv 1 = some 0 := by decide
  have := h 0 1 0 0 (by norm_num) h0 h1
  exact absurd this (by norm_num)

/-- Claim C7 (amended): the next-fire sequence is strictly monotonically
increasing until it becomes `None` for well-formed patterns — positive
interval, strictly increasing cron occurrence stream — where for Interval
patterns (and only for them: they alone cast the count with `as i32`) the
counts are kept below 2^31 so the cast does not wrap; Delayed and Cron
patterns are covered at every count. -/
theorem next_fire_strictly_monotone_wellformed :
  ∀ (pat : Model.SchedulePattern) (k k' : Nat) (t t' : Int),
    Model.patternWellFormed pat → k < k' → Model.countWithinCast pat k' →
    Model.SchedulePattern.next pat k = some t →
    Model.SchedulePattern.next pat k' = some t' → t < t' := by
  intro pat k k' t t' hwf hk hrange hnk hnk'
  cases pat with
  | delayed d =>
    cases k' with
    | zero => omega
    | succ m => simp [Model.SchedulePattern.next, Model.Delayed.next] at hnk'
  | interval iv =>
    have hiv : 0 < iv.interval := hwf
    have hk' : k' < 2 ^ 31 := hrange
    have hck : Model.i32_of_u32 k = (k : Int) := i32_of_u32_of_lt k (by omega)
    have hck' : Model.i32_of_u32 k' = (k' : Int) := i32_of_u32_of_lt k' hk'
    have hkk : (k : Int) < (k' : Int) := by exact_mod_cast hk
    have hmul : iv.interval * (k : Int) < iv.interval * (k' : Int) :=
      mul_lt_mul_of_pos_left hkk hiv
    cases hr : iv.rep with
    | infinitely =>
      simp [Model.SchedulePattern.next, Model.Interval.next, hr, hck] at hnk
      simp [Model.SchedulePattern.next, Model.Interval.next, hr, hck'] at hnk'
      omega
    | times n =>
      simp only [Model.SchedulePattern.next, Model.Interval.next, hr] at hnk hnk'
      by_cases h1 : k ≥ n
      · simp [h1] at hnk
      · by_cases h2 : k' ≥ n
        · simp [h2] at hnk'
        · simp [h1, h2, hck] at hnk
          simp [h1, h2, hck'] at hnk'
          omega
  | cron c =>
    cases hr : c.rep with
    | infinitely =>
      simp [Model.SchedulePattern.next, Model.Cron.next, hr] at hnk hnk'
      exact hwf k k' t t' hk hnk hnk'
    | times n =>
      simp only [Model.SchedulePattern.next, Model.Cron.next, hr] at hnk hnk'
      by_cases h1 : k ≥ n
      · simp [h1] at hnk
      · by_cases h2 : k' ≥ n
        · simp [h2] at hnk'
        · simp [h1] at hnk
          simp [h2] at hnk'
          exact hwf k k' t t' hk hnk hnk'

/-- Witness for C7's amended theorem on a positive-interval pattern at
counts 0 and 1. -/
theorem next_fire_strictly_monotone_wellformed_witness :
  Model.SchedulePattern.next patPosIv 0 = some 0 ∧
  Model.SchedulePattern.next patPosIv 1 = some 1 ∧
  (0 : Int) < 1 := by
  refine ⟨by decide, by decide, ?_⟩
  exact next_fire_strictly_monotone_wellformed patPosIv 0 1 0 1
    (by simp [patPosIv, Model.patternWellFormed]) (by norm_num)
    (by norm_num [patPosIv, Model.countWithinCast]) (by decide) (by decide)

/-- Claim C8 (counterexample): the facade `schedule` accepts a
`PeriodicInterval` pattern with interval −1 ≤ 0: with a succeeding store it
returns `Ok` and the schedule is stored, instead of rejecting the pattern at
ingestion. -/
theorem schedule_accepts_nonpositive_interval :
  (Scheduler.MessageScheduler.schedule (.ok ())
      (.periodicInterval ⟨0, -1, .infinitely⟩) (.event "m") 7).1 = .ok () ∧
  (Scheduler.MessageScheduler.schedule (.ok ())
      (.periodicInterval ⟨0, -1, .infinitely⟩) (.event "m") 7).2 =
    [.repoCall (.store_schedule (Scheduler.MessageSchedule.new 7
        (.periodicInterval ⟨0, -1, .infinitely⟩) (.event "m"))),
     .metric (.scheduled true)] :=
⟨rfl, rfl⟩

/-- Claim C8 (amended): the facade performs no validation at all: for every
pattern (including non-positive intervals) it builds the schedule, calls
`store_schedule`, emits `Scheduled(ok)` per the store result, and returns the
store result transparently. -/
theorem schedule_stores_without_validation :
  ∀ (storeResult : Except String Unit) (when : Scheduler.SchedulePattern)
    (what : Scheduler.Message) (id : Nat),
    (Scheduler.MessageScheduler.schedule storeResult when what id).1 = storeResult ∧
    (Scheduler.MessageScheduler.schedule storeResult when what id).2 =
      [.repoCall (.store_schedule (Scheduler.MessageSchedule.new id when what)),
       .metric (.scheduled (Scheduler.exceptIsOk storeResult))] := by
  intro st when what id
  cases st with
  | ok u => exact ⟨rfl, rfl⟩
  | error e => exact ⟨rfl, rfl⟩

/-- Claim C10 (confirmed): the second due filter inside `process_batch` is
strict — a schedule whose scheduled instant equals (or exceeds) the injected
clock's instant is excluded from the tick: its per-element processing emits
no events at all, so `transmitter.transmit` is not invoked for it. -/
theorem due_filter_excludes_exactly_now :
  ∀ (env : Scheduler.Env) (s : Scheduler.MessageSchedule) (t : Int),
    Scheduler.scheduledInstant s.schedule_pattern = some t → env.now ≤ t →
    Scheduler.MessageScheduler.processOne env s = .ok [] := by
  intro env s t hinst hle
  obtain ⟨sid, sp, smsg⟩ := s
  cases sp with
  | atDateTime dt =>
    simp only [Scheduler.scheduledInstant, Option.some.injEq] at hinst
    subst hinst
    simp only [Scheduler.MessageScheduler.processOne]
    rw [if_neg (not_lt.mpr hle)]
  | periodicInterval p =>
    simp only [Scheduler.scheduledInstant, Option.some.injEq] at hinst
    subst hinst
    simp only [Scheduler.MessageScheduler.processOne]
    rw [if_neg (not_lt.mpr hle)]
  | cron cs r =>
    simp [Scheduler.scheduledInstant] at hinst

/-- Witness for C10 at a schedule whose instant exactly equals the clock. -/
theorem due_filter_excludes_exactly_now_witness :
  Scheduler.MessageScheduler.processOne (Scheduler.envAllOk 5)
    ⟨0, .atDateTime 5, .event "m"⟩ = .ok [] :=
due_filter_excludes_exactly_now (Scheduler.envAllOk 5)
  ⟨0, .atDateTime 5, .event "m"⟩ 5 rfl (le_refl 5)

namespace Scheduler

/-- Whether a `PanicOr` outcome is a panic. -/
def PanicOr.isPanic {α : Type} : PanicOr α → Bool
| .panicked _ => true
| .ok _ => false

lemma transmit_ok_shape (env : Env) (s : MessageSchedule)
    (res : Except String Unit) (evts : List Event)
    (h : MessageScheduler.transmit env s = .ok (res, evts)) :
    ∃ rest, evts = .transmitCall s.message :: rest := by
  simp only [MessageScheduler.transmit] at h
  repeat' split at h
  all_goals first
    | exact PanicOr.noConfusion h
    | (injection h with h1; injection h1 with h1a h1b; subst h1b; exact ⟨_, rfl⟩)

lemma transmit_noncron_no_panic (env : Env) (s : MessageSchedule)
    (h : s.schedule_pattern.isCronPattern = false) :
    (MessageScheduler.transmit env s).isPanic = false := by
  simp only [MessageScheduler.transmit]
  repeat' split
  all_goals first
    | rfl
    | simp_all [SchedulePattern.isCronPattern]

/-- Per-element wrapper of `process_batch`: whatever `transmit` returns for a
due non-cron schedule, the element's trace is the `transmit` trace followed by
the `Transmitted` metric, whose flag reports the overall per-schedule result
(transmit and reconciliation together), not the transmitter call alone. -/
lemma processOne_of_transmit (env : Env) (s : MessageSchedule)
    (res : Except String Unit) (evts : List Event)
    (hdue : dueNonCron env s)
    (htr : MessageScheduler.transmit env s = .ok (res, evts)) :
    MessageScheduler.processOne env s = .ok (evts ++ [.metric (.transmitted (exceptIsOk res))]) := by
  obtain ⟨sid, sp, smsg⟩ := s
  rcases hdue with ⟨t, hsp, hlt⟩ | ⟨p, hsp, hlt⟩ <;> subst hsp <;> cases res with
  | ok u => simp [MessageScheduler.processOne, if_pos hlt, htr, exceptIsOk]
  | error e => simp [MessageScheduler.processOne, if_pos hlt, htr, exceptIsOk]

lemma processOne_noncron (env : Env) (s : MessageSchedule)
    (h : s.schedule_pattern.isCronPattern = false) :
    ∃ evts, MessageScheduler.processOne env s = .ok evts ∧
      (dueBool env s = true → Event.transmitCall s.message ∈ evts) := by
  by_cases hd : dueBool env s = true
  · have hdue : dueNonCron env s := by
      obtain ⟨sid, sp, smsg⟩ := s
      cases sp with
      | atDateTime dt =>
        exact Or.inl ⟨dt, rfl, by simpa [dueBool] using hd⟩
      | periodicInterval p =>
        exact Or.inr ⟨p, rfl, by simpa [dueBool] using hd⟩
      | cron cs r => simp [dueBool] at hd
    have hnp := transmit_noncron_no_panic env s h
    cases htr : MessageScheduler.transmit env s with
    | panicked m => rw [htr] at hnp; simp [PanicOr.isPanic] at hnp
    | ok p =>
      obtain ⟨res, evts⟩ := p
      obtain ⟨rest, hrest⟩ := transmit_ok_shape env s res evts htr
      refine ⟨evts ++ [.metric (.transmitted (exceptIsOk res))],
        processOne_of_transmit env s res evts hdue htr, ?_⟩
      intro _
      rw [hrest]
      simp
  · refine ⟨[], ?_, by simp [hd]⟩
    obtain ⟨sid, sp, smsg⟩ := s
    cases sp with
    | atDateTime dt =>
      simp only [dueBool, decide_eq_true_eq] at hd
      simp only [MessageScheduler.processOne]
      rw [if_neg hd]
    | periodicInterval p =>
      simp only [dueBool, decide_eq_true_eq] at hd
      simp only [MessageScheduler.processOne]
      rw [if_neg hd]
    | cron cs r => simp [SchedulePattern.isCronPattern] at h

lemma processBatchLoop_noncron (env : Env) (schedules : List MessageSchedule)
    (h : ∀ s ∈ schedules, s.schedule_pattern.isCronPattern = false) :
    ∃ evts, MessageScheduler.processBatchLoop env schedules = .ok evts ∧
      ∀ s ∈ schedules, dueBool env s = true → Event.transmitCall s.message ∈ evts := by
  induction schedules with
  | nil => exact ⟨[], rfl, by simp⟩
  | cons a rest ih =>
    obtain ⟨evA, hA, hAmem⟩ := processOne_noncron env a (h a (by simp))
    obtain ⟨evR, hR, hRmem⟩ := ih (fun s hs => h s (by simp [hs]))
    refine ⟨evA ++ evR, ?_, ?_⟩
    · simp [MessageScheduler.processBatchLoop, hA, hR]
    · intro s hs hdue
      rcases List.mem_cons.mp hs with rfl | hs2
      · exact List.mem_append_left _ (hAmem hdue)
      · exact List.mem_append_right _ (hRmem s hs2 hdue)

end Scheduler

/-- Claim C3 (counterexample): with a succeeding transmitter but a failing
`mark_done`, the tick emits `Transmitted(false)` — not `Transmitted(true)` —
and the `Transmitted` metric comes after the repository state update, not
before it: the trace is transmit call, `mark_done`, `MarkedDone(false)`,
`Transmitted(false)`. -/
theorem transmitted_true_missing_on_reconcile_failure :
  Scheduler.envSaveFails.transmitResult (.event "m") = .ok () ∧
  Scheduler.MessageScheduler.processOne Scheduler.envSaveFails
      ⟨0, .atDateTime 0, .event "m"⟩ =
    .ok [.transmitCall (.event "m"), .repoCall (.mark_done 0),
      .metric (.markedDone false), .metric (.transmitted false)] ∧
  Scheduler.Event.metric (.transmitted true) ∉
    ([.transmitCall (.event "m"), .repoCall (.mark_done 0),
      .metric (.markedDone false), .metric (.transmitted false)] :
      List Scheduler.Event) := by
  refine ⟨rfl, rfl, ?_⟩
  simp

/-- Claim C3 (amended): the `Transmitted` metric for a claimed due schedule
is emitted after the whole transmit-and-reconcile trace (so after the
repository state update), and its flag is the overall per-schedule result:
`Transmitted(true)` exactly when both transmit and the state update
succeeded; when transmit succeeds but the update fails, `Transmitted(false)`
is emitted. -/
theorem transmitted_metric_trails_reconcile :
  ∀ (env : Scheduler.Env) (s : Scheduler.MessageSchedule)
    (res : Except String Unit) (evts : List Scheduler.Event),
    Scheduler.dueNonCron env s →
    Scheduler.MessageScheduler.transmit env s = .ok (res, evts) →
    Scheduler.MessageScheduler.processOne env s =
      .ok (evts ++ [.metric (.transmitted (Scheduler.exceptIsOk res))]) := by
  intro env s res evts hdue htr
  exact Scheduler.processOne_of_transmit env s res evts hdue htr

/-- Witness for C3's amended theorem: succeeding transmitter and repository;
the `Transmitted(true)` metric trails the `mark_done` update. -/
theorem transmitted_metric_trails_reconcile_witness :
  Scheduler.MessageScheduler.processOne (Scheduler.envAllOk 10)
      ⟨0, .atDateTime 0, .event "m"⟩ =
    .ok ([.transmitCall (.event "m"), .repoCall (.mark_done 0),
      .metric (.markedDone true)] ++
      [.metric (.transmitted (Scheduler.exceptIsOk (.ok ())))]) :=
transmitted_metric_trails_reconcile (Scheduler.envAllOk 10)
  ⟨0, .atDateTime 0, .event "m"⟩ (.ok ())
  [.transmitCall (.event "m"), .repoCall (.mark_done 0), .metric (.markedDone true)]
  (Or.inl ⟨0, rfl, by decide⟩) rfl

/-- A schedule with the engine's `Cron` pattern. -/
def cronSched : Scheduler.MessageSchedule :=
⟨0, .cron ⟨fun _ => none⟩ .infinitely, .event "c"⟩

/-- Due delayed schedules for batch processing. -/
def schedA : Scheduler.MessageSchedule := ⟨1, .atDateTime 0, .event "a"⟩

/-- A second due delayed schedule. -/
def schedB : Scheduler.MessageSchedule := ⟨2, .atDateTime 0, .event "b"⟩

/-- Claim C4 (counterexample): a polled batch containing a `Cron` schedule
panics the tick (`panic!("Implement me")` in the due filter), even with every
collaborator succeeding. -/
theorem process_batch_panics_on_cron :
  Scheduler.MessageScheduler.process_batch (Scheduler.envAllOk 10) (.ok [cronSched]) =
    .panicked "Implement me" := rfl

/-- Claim C4 (amended): for batches without `Cron` schedules the engine never
panics: processing returns `Ok` whatever the collaborators answer, and every
due schedule of the batch gets its transmit call — a per-schedule error does
not abort the remaining schedules. A `Cron` schedule in the batch panics the
tick. -/
theorem process_batch_total_without_cron :
  ∀ (env : Scheduler.Env) (schedules : List Scheduler.MessageSchedule),
    (∀ s ∈ schedules, s.schedule_pattern.isCronPattern = false) →
    ∃ evts, Scheduler.MessageScheduler.process_batch env (.ok schedules) =
        .ok (.ok (), .metric (.polled true) :: evts) ∧
      ∀ s ∈ schedules, Scheduler.dueBool env s = true →
        Scheduler.Event.transmitCall s.message ∈ evts := by
  intro env schedules h
  obtain ⟨evts, hL, hmem⟩ := Scheduler.processBatchLoop_noncron env schedules h
  exact ⟨evts, by simp [Scheduler.MessageScheduler.process_batch, hL], hmem⟩

/-- Witness for C4's amended theorem: a batch of two due delayed schedules
processed under a failing transmitter — no panic, overall `Ok`, and both
schedules get their transmit call. -/
theorem process_batch_total_without_cron_witness :
  ∃ evts, Scheduler.MessageScheduler.process_batch Scheduler.envTransmitFails
      (.ok [schedA, schedB]) = .ok (.ok (), .metric (.polled true) :: evts) ∧
    ∀ s ∈ [schedA, schedB], Scheduler.dueBool Scheduler.envTransmitFails s = true →
      Scheduler.Event.transmitCall s.message ∈ evts :=
process_batch_total_without_cron Scheduler.envTransmitFails [schedA, schedB] (by
  intro s hs
  rcases List.mem_cons.mp hs with rfl | hs2
  · rfl
  · rcases List.mem_cons.mp hs2 with rfl | hs3
    · rfl
    · cases hs3)

/-- Claim C9 (confirmed): when the transmitter fails for a claimed due
schedule, the engine calls `reschedule` and nothing else on the repository
(no `mark_done`, no `set_next_periodic`: count and next are untouched); on
reschedule success it emits `Rescheduled(true)` and returns the original
transmit error, on reschedule failure it emits `Rescheduled(false)` and
returns the composite of both errors; the tick then emits
`Transmitted(false)`. -/
theorem transmit_failure_reschedules_and_reports :
  ∀ (env : Scheduler.Env) (s : Scheduler.MessageSchedule) (e : String),
    Scheduler.dueNonCron env s →
    env.transmitResult s.message = .error e →
    ((env.rescheduleResult s.id = .ok () →
      Scheduler.MessageScheduler.transmit env s =
        .ok (.error e, [.transmitCall s.message, .repoCall (.reschedule s.id),
          .metric (.rescheduled true)]) ∧
      Scheduler.MessageScheduler.processOne env s =
        .ok ([.transmitCall s.message, .repoCall (.reschedule s.id),
          .metric (.rescheduled true)] ++ [.metric (.transmitted false)])) ∧
    (∀ e2, env.rescheduleResult s.id = .error e2 →
      Scheduler.MessageScheduler.transmit env s =
        .ok (.error (Scheduler.compositeError e e2), [.transmitCall s.message,
          .repoCall (.reschedule s.id), .metric (.rescheduled false)]) ∧
      Scheduler.MessageScheduler.processOne env s =
        .ok ([.transmitCall s.message, .repoCall (.reschedule s.id),
          .metric (.rescheduled false)] ++ [.metric (.transmitted false)]))) := by
  intro env s e hdue htr
  constructor
  · intro hres
    have ht : Scheduler.MessageScheduler.transmit env s =
        .ok (.error e, [.transmitCall s.message, .repoCall (.reschedule s.id),
          .metric (.rescheduled true)]) := by
      simp [Scheduler.MessageScheduler.transmit, htr, hres]
    exact ⟨ht, Scheduler.processOne_of_transmit env s (.error e) _ hdue ht⟩
  · intro e2 hres
    have ht : Scheduler.MessageScheduler.transmit env s =
        .ok (.error (Scheduler.compositeError e e2), [.transmitCall s.message,
          .repoCall (.reschedule s.id), .metric (.rescheduled false)]) := by
      simp [Scheduler.MessageScheduler.transmit, htr, hres]
    exact ⟨ht, Scheduler.processOne_of_transmit env s (.error (Scheduler.compositeError e e2))
      _ hdue ht⟩

/-- Witness for C9 with a concrete failing transmitter and succeeding
reschedule. -/
theorem transmit_failure_reschedules_and_reports_witness :
  Scheduler.MessageScheduler.transmit Scheduler.envTransmitFails
      ⟨0, .atDateTime 0, .event "m"⟩ =
    .ok (.error "boom", [.transmitCall (.event "m"), .repoCall (.reschedule 0),
      .metric (.rescheduled true)]) ∧
  Scheduler.MessageScheduler.processOne Scheduler.envTransmitFails
      ⟨0, .atDateTime 0, .event "m"⟩ =
    .ok ([.transmitCall (.event "m"), .repoCall (.reschedule 0),
      .metric (.rescheduled true)] ++ [.metric (.transmitted false)]) :=
(transmit_failure_reschedules_and_reports Scheduler.envTransmitFails
  ⟨0, .atDateTime 0, .event "m"⟩ "boom" (Or.inl ⟨0, rfl, by decide⟩) rfl).1 rfl

/-- A stored schedule that is due at instant 0. -/
def dueSched : Model.MessageSchedule :=
{ id := 1, schedule_pattern := .delayed ⟨0⟩, next := some 0, transmission_count := 0,
  message := .event "m" }

/-- An in-memory store holding exactly `dueSched`. -/
def repoOne : RepositoryInMemory := ⟨[dueSched]⟩

/-- Claim C5 (counterexample): the in-memory `poll_batch` performs no claim
transition at all — `MessageSchedule` in src/model.rs has no state field and
`poll_batch` takes `&self`, leaving the store untouched — so after a poll
returns `dueSched`, a subsequent poll on the (necessarily unchanged) store,
with no `save` or `reschedule` in between, returns the very same schedule
again. -/
theorem poll_batch_returns_same_schedule_again :
  RepositoryInMemory.poll_batch repoOne 0 10 = [dueSched] ∧
  dueSched ∈ RepositoryInMemory.poll_batch repoOne 0 10 :=
⟨rfl, List.Mem.head _⟩

/-- Claim C5 (amended): `poll_batch(before, limit)` returns at most `limit`
schedules, each one a stored schedule (returned unchanged — no `Doing`
transition exists in this implementation) whose `next` is `Some t` with
`t ≤ before`; terminal schedules with `next = None` are filtered out. -/
theorem poll_batch_bounded_and_due :
  ∀ (r : RepositoryInMemory) (before : Int) (limit : Nat),
    (RepositoryInMemory.poll_batch r before limit).length ≤ limit ∧
    (RepositoryInMemory.poll_batch r before limit).Sublist r.schedules ∧
    (RepositoryInMemory.poll_batch r before limit).all
      (fun s => match s.next with
        | none => false
        | some t => decide (t ≤ before)) = true := by
  intro r before limit
  refine ⟨?_, ?_, ?_⟩
  · unfold RepositoryInMemory.poll_batch
    rw [List.length_take]
    exact min_le_left _ _
  · exact (List.take_sublist _ _).trans (List.filter_sublist _)
  · rw [List.all_eq_true]
    intro x hx
    unfold RepositoryInMemory.poll_batch at hx
    have hx2 := List.mem_of_mem_take hx
    have hx3 := List.of_mem_filter hx2
    exact hx3

namespace Scheduler

/-- Modelled from the spec: the concrete repository behind scheduler.rs's
`Repository` trait is not under src/ (only the trait is); per spec §4.2 and
§4.5, `mark_done` makes the schedule terminal (`Done`) and
`set_next_periodic` records the passed next time and repeat and returns the
claim to `Scheduled`. This is the store's view of one tracked periodic
schedule. -/
structure StoreState where
  periodic : Periodic
  state : State

/-- Modelled from the spec: how the store reacts to each engine interaction
for the tracked schedule (metric and transmit events do not touch it). -/
def applyEvent (st : StoreState) : Event → StoreState
| .repoCall (.mark_done _) => { st with state := .done }
| .repoCall (.set_next_periodic _ next r) =>
    { periodic := { next := next, interval := st.periodic.interval, rep := r },
      state := .scheduled }
| .repoCall (.reschedule _) => { st with state := .scheduled }
| _ => st

/-- Number of `transmitter.transmit` invocations in a trace. -/
def countTransmits : List Event → Nat
| [] => 0
| .transmitCall _ :: rest => countTransmits rest + 1
| _ :: rest => countTransmits rest

/-- One engine tick on the tracked periodic schedule: if it is not terminal
the poll returns it and the tick runs the per-schedule processing at a clock
instant just past its `next` time (so the due filter passes), with every
collaborator call succeeding; the store then absorbs the emitted repository
calls. Returns the new store and the number of transmit invocations. -/
def tick (st : StoreState) : StoreState × Nat :=
match st.state with
| .done => (st, 0)
| _ =>
    let sched : MessageSchedule :=
      { id := 0, schedule_pattern := .periodicInterval st.periodic, message := .event "m" }
    match MessageScheduler.processOne (envAllOk (st.periodic.next + 1)) sched with
    | .panicked _ => (st, 0)
    | .ok evts => (evts.foldl applyEvent st, countTransmits evts)

/-- A run of `k` engine ticks, accumulating the transmit count. -/
def run : Nat → StoreState → StoreState × Nat
| 0, st => (st, 0)
| k + 1, st =>
    let t := tick st
    let rest := run k t.1
    (rest.1, t.2 + rest.2)

lemma run_succ (k : Nat) (st : StoreState) :
    run (k + 1) st = ((run k (tick st).1).1, (tick st).2 + (run k (tick st).1).2) := rfl

lemma tick_times_zero (x i : Int) :
    tick ⟨⟨x, i, .times 0⟩, .scheduled⟩ = (⟨⟨x, i, .times 0⟩, .done⟩, 1) := by
  simp [tick, MessageScheduler.processOne, MessageScheduler.transmit, envAllOk,
    applyEvent, countTransmits, Int.lt_add_one_iff]

lemma tick_times_succ (x i : Int) (n : Nat) :
    tick ⟨⟨x, i, .times (n + 1)⟩, .scheduled⟩ = (⟨⟨x + i, i, .times n⟩, .scheduled⟩, 1) := by
  simp [tick, MessageScheduler.processOne, MessageScheduler.transmit, envAllOk,
    applyEvent, countTransmits, Int.lt_add_one_iff]

lemma run_times (n : Nat) : ∀ (x : Int),
    (run (n + 1) ⟨⟨x, 1, .times n⟩, .scheduled⟩).2 = n + 1 ∧
    (run (n + 1) ⟨⟨x, 1, .times n⟩, .scheduled⟩).1.state = .done := by
  induction n with
  | zero =>
    intro x
    constructor
    · simp [run, tick_times_zero]
    · simp [run, tick_times_zero]
  | succ m ih =>
    intro x
    have h2 := ih (x + 1)
    constructor
    · rw [run_succ, tick_times_succ]
      dsimp only
      rw [h2.1]
      omega
    · rw [run_succ, tick_times_succ]
      dsimp only
      exact h2.2

end Scheduler

/-- Claim C1 (divergence, evaluated): with every repository and transmitter
call succeeding, the engine transmits a periodic `Times(n)` schedule exactly
n+1 times before it becomes terminal — each fire transmits first, the repeat
is decremented afterwards, and the fire at `Times(0)` still transmits before
`mark_done`. In particular a `Times(0)` schedule is transmitted once, and
when n transmissions have happened the schedule is still live, contradicting
the claimed bound of n and terminality at count n. -/
theorem times_repeat_engine_transmits_succ :
  ∀ n : Nat,
    (Scheduler.run (n + 1) ⟨⟨0, 1, .times n⟩, .scheduled⟩).2 = n + 1 ∧
    (Scheduler.run (n + 1) ⟨⟨0, 1, .times n⟩, .scheduled⟩).1.state = .done := by
  intro n
  exact Scheduler.run_times n 0
